import Mathlib

/-!
Shallow embedding of the `aflpp_custom_mutator` crate (an FFI bridge that
exposes a Rust `CustomMutator` trait implementation through the C entry
points expected by the AFL++ fuzzing host) together with its `fallible`
adapter module and the sample reversal mutator from the `example` crate.

Modelling choices:
- Raw pointers are natural numbers; `0` is the null pointer.
- A byte is a `Nat` (no byte arithmetic occurs in the bridge).
- A slice crossing the boundary is modelled by its contents (`List Nat`);
  the slice length of the source is the length of that list.
- The heap of live `FFIContext` boxes is a partial map from addresses to
  plugin states plus a fresh-address counter; `Box::into_raw` hands out the
  counter value (heap allocations are never at address 0, which the
  well-formedness predicate `Heap.WF` records).
- A Rust `panic!`/failed `assert!` is the `Outcome.panicked` result carrying
  the panic message; dereferencing a stale (freed) handle is undefined
  behaviour, modelled as the distinguished `Outcome.ub` result.
- Each bridge function additionally returns the trace of invocations it
  makes into the plugin (a `List PluginCall`), so that claims about which
  plugin operation was called with which arguments are statable.
-/

namespace AflppCustomMutator

/-- Raw pointers crossing the C ABI boundary; `0` plays the role of NULL. -/
abbrev Ptr := Nat

/-- A byte of a buffer. -/
abbrev Byte := Nat

/-- Contents of a null-terminated C string (the bytes before the NUL). -/
abbrev CString := List Byte

/-- The opaque `afl_state` host structure; the bridge only ever borrows it. -/
structure afl_state where
  host : Unit

/-- Result of one Rust computation at the boundary: a normal value, a
`panic!`/`assert!` abort carrying the panic message, or undefined behaviour
(dereference of a stale handle, which the source cannot detect). -/
inductive Outcome (A : Type) where
  | ok : A → Outcome A
  | panicked : String → Outcome A
  | ub : Outcome A
deriving DecidableEq, Repr

/-- Map a function over the value of a normal `Outcome`. -/
def Outcome.map {A B : Type} (f : A → B) : Outcome A → Outcome B
  | .ok a => .ok (f a)
  | .panicked m => .panicked m
  | .ub => .ub

/-- The result of a call to `CustomMutator::fuzz` (enum `FuzzResult` of
`lib.rs`): the buffer was modified in place, a mutator-owned replacement
buffer (its address and contents) should be returned, or the mutation
failed. -/
inductive FuzzResult where
  | InPlace : FuzzResult
  | NewBuffer : Ptr → List Byte → FuzzResult
  | Fail : FuzzResult
deriving DecidableEq, Repr

/-- The `CustomMutator` trait of `lib.rs`, as a record of operations over a
plugin state type `S`. Methods taking `&mut self` are state-passing:
they consume an `S` and return the updated `S`. `fuzz` mutates its primary
buffer in place, so it also returns the buffer's new contents. `describe`
and `introspection` return an optional C-string pointer (`res.as_ptr()` is
all the bridge uses of the returned `&CStr`). -/
structure CustomMutator (S : Type) where
  init : afl_state → Nat → S
  fuzz : S → List Byte → Option (List Byte) → Nat → S × List Byte × FuzzResult
  fuzz_count : S → List Byte → S × Nat
  queue_new_entry : S → CString → Option CString → S
  queue_get : S → CString → S × Bool
  describe : S → Nat → S × Option Ptr
  introspection : S → S × Option Ptr

/-- Build a `CustomMutator` from the two required trait methods, taking all
optional methods from the trait's default bodies (`fuzz_count` returns 1,
`queue_new_entry` is a no-op, `queue_get` returns true, `describe` and
`introspection` return `None`). -/
def CustomMutator.withDefaults {S : Type}
    (init : afl_state → Nat → S)
    (fuzz : S → List Byte → Option (List Byte) → Nat → S × List Byte × FuzzResult) :
    CustomMutator S :=
  ⟨init, fuzz,
    fun s _ => (s, 1),
    fun s _ _ => s,
    fun s _ => (s, true),
    fun s _ => (s, none),
    fun s => (s, none)⟩

/-- The heap of live `FFIContext` allocations: a map from addresses to the
plugin state stored in the box at that address, plus the next fresh
address `Box::into_raw` will hand out. -/
structure Heap (S : Type) where
  next : Ptr
  ctxs : Ptr → Option S

/-- Well-formedness of the allocation state: addresses are non-null and
addresses at or beyond the fresh counter are unallocated. -/
def Heap.WF {S : Type} (heap : Heap S) : Prop :=
  0 < heap.next ∧ ∀ p, heap.next ≤ p → heap.ctxs p = none

/-- Store state `s` in the existing allocation at address `p` (the write-back
of the mutated plugin state when a bridge call returns). -/
def Heap.update {S : Type} (heap : Heap S) (p : Ptr) (s : S) : Heap S :=
  ⟨heap.next, fun q => if q = p then some s else heap.ctxs q⟩

/-- Allocate a fresh box holding `s` and return its address
(`Box::new` followed by `Box::into_raw` in `FFIContext::into_ptr`). -/
def Heap.alloc {S : Type} (heap : Heap S) (s : S) : Heap S × Ptr :=
  (⟨heap.next + 1, fun q => if q = heap.next then some s else heap.ctxs q⟩, heap.next)

/-- Remove the allocation at address `p` (dropping the reconstituted box in
`afl_custom_deinit_`). -/
def Heap.free {S : Type} (heap : Heap S) (p : Ptr) : Heap S :=
  ⟨heap.next, fun q => if q = p then none else heap.ctxs q⟩

/-- Panic message of the `assert!(!ptr.is_null())` in `FFIContext::from`. -/
def msgNullHandle : String := "assertion failed: !ptr.is_null()"

/-- Panic message of `afl_custom_init_` when the host state reference is NULL. -/
def msgNullAfl : String := "mutator func called with NULL afl"

/-- Panic message for a null primary buffer (used verbatim by both
`afl_custom_fuzz_` and `afl_custom_fuzz_count_`). -/
def msgNullBuf : String := "null buf passed to afl_custom_fuzz"

/-- Panic message for a null output-pointer slot in `afl_custom_fuzz_`. -/
def msgNullOutBuf : String := "null out_buf passed to afl_custom_fuzz"

/-- Panic message for a null new-entry filename in `afl_custom_queue_new_entry_`. -/
def msgNullFilenameNewQueue : String :=
  "received null filename_new_queue in afl_custom_queue_new_entry"

/-- Panic message of the `assert!(!filename.is_null())` in `afl_custom_queue_get_`. -/
def msgNullFilename : String := "assertion failed: !filename.is_null()"

/-- Panic message of the fallible adapter when the error handler returns. -/
def msgHandlerReturned : String := "Error handler did not panic"

/-- The `FFIContext::from` reconstitution: asserts the handle is non-null,
then reads the box behind it. Reading a handle that is not a live
allocation is undefined behaviour. The `ManuallyDrop` wrapper of the source
means merely dropping the reconstituted view frees nothing, which is why
this returns the state without removing it from the heap. -/
def FFIContext.fromPtr {S : Type} (heap : Heap S) (ptr : Ptr) : Outcome S :=
  if ptr = 0 then .panicked msgNullHandle
  else
    match heap.ctxs ptr with
    | some s => .ok s
    | none => .ub

/-- One plugin invocation made by a bridge function, recording the operation
and the arguments the plugin actually observes. -/
inductive PluginCall where
  | init : Nat → PluginCall
  | fuzz : List Byte → Option (List Byte) → Nat → PluginCall
  | fuzz_count : List Byte → PluginCall
  | queue_new_entry : CString → Option CString → PluginCall
  | queue_get : CString → PluginCall
  | describe : Nat → PluginCall
  | introspection : PluginCall
deriving DecidableEq, Repr

/-- The host-visible effect of one `afl_custom_fuzz_` call: the heap after the
write-back, the primary buffer's contents after the in-place mutation, the
pointer value written to the `out_buf` slot, the returned length, and (as
instrumentation) which `FuzzResult` variant the plugin produced. -/
structure FuzzOut (S : Type) where
  heap : Heap S
  bufData : List Byte
  outSlot : Ptr
  ret : Nat
  res : FuzzResult

/-- Bridge `afl_custom_init_` of `lib.rs`: unwraps the nullable host-state
reference (panicking with `msgNullAfl` when it is NULL), runs the plugin's
`init`, boxes the resulting context and returns the raw address. -/
def afl_custom_init_ {S : Type} (M : CustomMutator S) (heap : Heap S)
    (afl : Option afl_state) (seed : Nat) :
    Outcome (Heap S × Ptr) × List PluginCall :=
  match afl with
  | none => (.panicked msgNullAfl, [])
  | some a => (.ok (heap.alloc (M.init a seed)), [.init seed])

/-- Bridge `afl_custom_fuzz_` of `lib.rs`: reconstitutes the context, checks
the primary buffer and the output slot for NULL, treats a null secondary
buffer pointer as `None`, calls the plugin's `fuzz`, and encodes the
`FuzzResult` into the output slot and the returned length. The slice
arguments are modelled by their contents; `buf` and `add_buf` are the raw
pointers whose nullness the source tests. -/
def afl_custom_fuzz_ {S : Type} (M : CustomMutator S) (heap : Heap S)
    (data : Ptr) (buf : Ptr) (bufData : List Byte) (out_buf : Ptr)
    (add_buf : Ptr) (addData : List Byte) (max_size : Nat) :
    Outcome (FuzzOut S) × List PluginCall :=
  match FFIContext.fromPtr heap data with
  | .panicked m => (.panicked m, [])
  | .ub => (.ub, [])
  | .ok s =>
    if buf = 0 then (.panicked msgNullBuf, [])
    else if out_buf = 0 then (.panicked msgNullOutBuf, [])
    else
      let add_buff_slice := if add_buf = 0 then none else some addData
      let r := M.fuzz s bufData add_buff_slice max_size
      let heap' := heap.update data r.1
      match r.2.2 with
      | .InPlace =>
        (.ok ⟨heap', r.2.1, buf, r.2.1.length, .InPlace⟩,
          [.fuzz bufData add_buff_slice max_size])
      | .NewBuffer a d =>
        (.ok ⟨heap', r.2.1, a, d.length, .NewBuffer a d⟩,
          [.fuzz bufData add_buff_slice max_size])
      | .Fail =>
        (.ok ⟨heap', r.2.1, 0, 0, .Fail⟩,
          [.fuzz bufData add_buff_slice max_size])

/-- Bridge `afl_custom_fuzz_count_` of `lib.rs`: reconstitutes the context,
checks the buffer pointer for NULL, and returns the plugin's count. -/
def afl_custom_fuzz_count_ {S : Type} (M : CustomMutator S) (heap : Heap S)
    (data : Ptr) (buf : Ptr) (bufData : List Byte) :
    Outcome (Heap S × Nat) × List PluginCall :=
  match FFIContext.fromPtr heap data with
  | .panicked m => (.panicked m, [])
  | .ub => (.ub, [])
  | .ok s =>
    if buf = 0 then (.panicked msgNullBuf, [])
    else
      let r := M.fuzz_count s bufData
      (.ok (heap.update data r.1, r.2), [.fuzz_count bufData])

/-- Bridge `afl_custom_queue_new_entry_` of `lib.rs`: reconstitutes the
context, panics on a null new-entry filename, treats a null original-entry
filename as `None`, and calls the plugin. -/
def afl_custom_queue_new_entry_ {S : Type} (M : CustomMutator S) (heap : Heap S)
    (data : Ptr) (filename_new_queue : Ptr) (fnew : CString)
    (filename_orig_queue : Ptr) (forig : CString) :
    Outcome (Heap S) × List PluginCall :=
  match FFIContext.fromPtr heap data with
  | .panicked m => (.panicked m, [])
  | .ub => (.ub, [])
  | .ok s =>
    if filename_new_queue = 0 then (.panicked msgNullFilenameNewQueue, [])
    else
      let orig := if filename_orig_queue ≠ 0 then some forig else none
      (.ok (heap.update data (M.queue_new_entry s fnew orig)),
        [.queue_new_entry fnew orig])

/-- Bridge `afl_custom_deinit_` of `lib.rs`: reconstitutes the context and,
by `ManuallyDrop::into_inner`, actually drops it, freeing the allocation. -/
def afl_custom_deinit_ {S : Type} (heap : Heap S) (data : Ptr) :
    Outcome (Heap S) × List PluginCall :=
  match FFIContext.fromPtr heap data with
  | .panicked m => (.panicked m, [])
  | .ub => (.ub, [])
  | .ok _ => (.ok (heap.free data), [])

/-- Bridge `afl_custom_introspection_` of `lib.rs`: reconstitutes the context
and encodes the plugin's optional C-string as a pointer, NULL meaning
"no data". -/
def afl_custom_introspection_ {S : Type} (M : CustomMutator S) (heap : Heap S)
    (data : Ptr) : Outcome (Heap S × Ptr) × List PluginCall :=
  match FFIContext.fromPtr heap data with
  | .panicked m => (.panicked m, [])
  | .ub => (.ub, [])
  | .ok s =>
    let r := M.introspection s
    (.ok (heap.update data r.1, match r.2 with | some p => p | none => 0),
      [.introspection])

/-- Bridge `afl_custom_describe_` of `lib.rs`: reconstitutes the context and
encodes the plugin's optional description C-string as a pointer. -/
def afl_custom_describe_ {S : Type} (M : CustomMutator S) (heap : Heap S)
    (data : Ptr) (max_description_len : Nat) :
    Outcome (Heap S × Ptr) × List PluginCall :=
  match FFIContext.fromPtr heap data with
  | .panicked m => (.panicked m, [])
  | .ub => (.ub, [])
  | .ok s =>
    let r := M.describe s max_description_len
    (.ok (heap.update data r.1, match r.2 with | some p => p | none => 0),
      [.describe max_description_len])

/-- Bridge `afl_custom_queue_get_` of `lib.rs`: reconstitutes the context,
asserts the filename pointer is non-null, and returns the plugin's boolean
verdict encoded as a byte. -/
def afl_custom_queue_get_ {S : Type} (M : CustomMutator S) (heap : Heap S)
    (data : Ptr) (filename : Ptr) (fname : CString) :
    Outcome (Heap S × Nat) × List PluginCall :=
  match FFIContext.fromPtr heap data with
  | .panicked m => (.panicked m, [])
  | .ub => (.ub, [])
  | .ok s =>
    if filename = 0 then (.panicked msgNullFilename, [])
    else
      let r := M.queue_get s fname
      (.ok (heap.update data r.1, if r.2 then 1 else 0), [.queue_get fname])

/-- The `FallibleCustomMutator` trait of `fallible.rs`: the same operation
shapes as `CustomMutator`, but every operation returns `Except E` of its
value, together with the designated error handler `handle_err`, which is
expected to panic (so its result is an `Outcome Unit`). Field order follows
the trait's declaration order. -/
structure FallibleCustomMutator (S E : Type) where
  handle_err : E → Outcome Unit
  init : afl_state → Nat → Except E S
  fuzz_count : S → List Byte → Except E (S × Nat)
  fuzz : S → List Byte → Option (List Byte) → Nat → Except E (S × List Byte × FuzzResult)
  queue_new_entry : S → CString → Option CString → Except E S
  queue_get : S → CString → Except E (S × Bool)
  describe : S → Nat → Except E (S × Option Ptr)
  introspection : S → Except E (S × Option Ptr)

/-- Build a `FallibleCustomMutator` from the error handler and the two
required trait methods, taking every optional method from its default body
(`fuzz_count` returns `Ok(1)`, `queue_new_entry` returns `Ok(())`,
`queue_get` returns `Ok(true)`, `describe` and `introspection` return
`Ok(None)`). -/
def FallibleCustomMutator.withDefaults {S E : Type}
    (handle_err : E → Outcome Unit)
    (init : afl_state → Nat → Except E S)
    (fuzz : S → List Byte → Option (List Byte) → Nat →
      Except E (S × List Byte × FuzzResult)) :
    FallibleCustomMutator S E :=
  ⟨handle_err, init,
    fun s _ => .ok (s, 1),
    fuzz,
    fun s _ _ => .ok s,
    fun s _ => .ok (s, true),
    fun s _ => .ok (s, none),
    fun s => .ok (s, none)⟩

/-- The match that every method of the blanket `impl CustomMutator for M`
in `fallible.rs` performs on the fallible result: `Ok(r)` is forwarded
unchanged; on `Err(e)` the handler is invoked with `e` and, should it
return normally, the adapter panics with `msgHandlerReturned`. The second
component is the trace of handler invocations (the error values passed). -/
def handleResult {E A : Type} (handle_err : E → Outcome Unit) :
    Except E A → Outcome A × List E
  | .ok r => (.ok r, [])
  | .error e =>
    match handle_err e with
    | .ok _ => (.panicked msgHandlerReturned, [e])
    | .panicked m => (.panicked m, [e])
    | .ub => (.ub, [e])

/-- Adapted `init` of the blanket `impl CustomMutator for M` in `fallible.rs`. -/
def adaptInit {S E : Type} (F : FallibleCustomMutator S E)
    (afl : afl_state) (seed : Nat) : Outcome S × List E :=
  handleResult F.handle_err (F.init afl seed)

/-- Adapted `fuzz_count` of the blanket impl in `fallible.rs`. -/
def adaptFuzzCount {S E : Type} (F : FallibleCustomMutator S E)
    (s : S) (buffer : List Byte) : Outcome (S × Nat) × List E :=
  handleResult F.handle_err (F.fuzz_count s buffer)

/-- Adapted `fuzz` of the blanket impl in `fallible.rs`. -/
def adaptFuzz {S E : Type} (F : FallibleCustomMutator S E)
    (s : S) (buffer : List Byte) (add_buff : Option (List Byte))
    (max_size : Nat) : Outcome (S × List Byte × FuzzResult) × List E :=
  handleResult F.handle_err (F.fuzz s buffer add_buff max_size)

/-- Adapted `queue_new_entry` of the blanket impl in `fallible.rs`. -/
def adaptQueueNewEntry {S E : Type} (F : FallibleCustomMutator S E)
    (s : S) (filename_new_queue : CString)
    (filename_orig_queue : Option CString) : Outcome S × List E :=
  handleResult F.handle_err (F.queue_new_entry s filename_new_queue filename_orig_queue)

/-- Adapted `queue_get` of the blanket impl in `fallible.rs`. -/
def adaptQueueGet {S E : Type} (F : FallibleCustomMutator S E)
    (s : S) (filename : CString) : Outcome (S × Bool) × List E :=
  handleResult F.handle_err (F.queue_get s filename)

/-- Adapted `describe` of the blanket impl in `fallible.rs`. -/
def adaptDescribe {S E : Type} (F : FallibleCustomMutator S E)
    (s : S) (max_description : Nat) : Outcome (S × Option Ptr) × List E :=
  handleResult F.handle_err (F.describe s max_description)

/-- Adapted `introspection` of the blanket impl in `fallible.rs`. -/
def adaptIntrospection {S E : Type} (F : FallibleCustomMutator S E)
    (s : S) : Outcome (S × Option Ptr) × List E :=
  handleResult F.handle_err (F.introspection s)

/-- The sample reversal plugin of the `example` crate: stateless (`S = Unit`),
its `init` ignores the host state and the seed, its `fuzz` reverses the
primary buffer in place and reports `InPlace`; every optional operation is
the trait default. -/
def ExampleMutator : CustomMutator Unit :=
  CustomMutator.withDefaults (fun _ _ => ())
    (fun s buffer _ _ => (s, buffer.reverse, .InPlace))

/-- One host call to a non-init, non-deinit entry point, with the arguments
the host supplies besides the handle. -/
inductive EntryCall where
  | fuzz : Ptr → List Byte → Ptr → Ptr → List Byte → Nat → EntryCall
  | fuzz_count : Ptr → List Byte → EntryCall
  | queue_new_entry : Ptr → CString → Ptr → CString → EntryCall
  | queue_get : Ptr → CString → EntryCall
  | describe : Nat → EntryCall
  | introspection : EntryCall
deriving DecidableEq, Repr

/-- Run one intermediate entry point against handle `h`, keeping only the
heap effect. -/
def runEntry {S : Type} (M : CustomMutator S) (heap : Heap S) (h : Ptr) :
    EntryCall → Outcome (Heap S)
  | .fuzz buf bufData out_buf add_buf addData max_size =>
    (afl_custom_fuzz_ M heap h buf bufData out_buf add_buf addData max_size).1.map
      FuzzOut.heap
  | .fuzz_count buf bufData =>
    (afl_custom_fuzz_count_ M heap h buf bufData).1.map Prod.fst
  | .queue_new_entry pnew fnew porig forig =>
    (afl_custom_queue_new_entry_ M heap h pnew fnew porig forig).1
  | .queue_get pfn fname =>
    (afl_custom_queue_get_ M heap h pfn fname).1.map Prod.fst
  | .describe maxLen =>
    (afl_custom_describe_ M heap h maxLen).1.map Prod.fst
  | .introspection =>
    (afl_custom_introspection_ M heap h).1.map Prod.fst

/-- Run a sequence of intermediate entry points against handle `h`,
propagating panics and undefined behaviour. -/
def runSeq {S : Type} (M : CustomMutator S) (h : Ptr) :
    List EntryCall → Heap S → Outcome (Heap S)
  | [], heap => .ok heap
  | c :: cs, heap =>
    match runEntry M heap h c with
    | .ok heap' => runSeq M h cs heap'
    | .panicked m => .panicked m
    | .ub => .ub

/-- C1: for every mutator and every `afl_custom_fuzz_` call with a valid
handle and non-null primary-buffer and output-slot pointers, the bridge
encodes the plugin's `FuzzResult` as follows: `InPlace` stores the primary
buffer's address in the output slot and returns the primary buffer's
length; `NewBuffer` stores the replacement's address and returns the
replacement's length; `Fail` stores the null pointer and returns 0. -/
theorem claim_C1_fuzz_encoding {S : Type} (M : CustomMutator S) (heap : Heap S)
    (data buf out_buf add_buf : Ptr) (bufData addData : List Byte)
    (max_size : Nat) (s : S) (hvalid : heap.ctxs data = some s)
    (hdata : data ≠ 0) (hbuf : buf ≠ 0) (hout : out_buf ≠ 0) :
    (∀ s' bufData',
      M.fuzz s bufData (if add_buf = 0 then none else some addData) max_size =
        (s', bufData', .InPlace) →
      (afl_custom_fuzz_ M heap data buf bufData out_buf add_buf addData
          max_size).1 =
        .ok ⟨heap.update data s', bufData', buf, bufData'.length, .InPlace⟩) ∧
    (∀ s' bufData' a d,
      M.fuzz s bufData (if add_buf = 0 then none else some addData) max_size =
        (s', bufData', .NewBuffer a d) →
      (afl_custom_fuzz_ M heap data buf bufData out_buf add_buf addData
          max_size).1 =
        .ok ⟨heap.update data s', bufData', a, d.length, .NewBuffer a d⟩) ∧
    (∀ s' bufData',
      M.fuzz s bufData (if add_buf = 0 then none else some addData) max_size =
        (s', bufData', .Fail) →
      (afl_custom_fuzz_ M heap data buf bufData out_buf add_buf addData
          max_size).1 =
        .ok ⟨heap.update data s', bufData', 0, 0, .Fail⟩) := by
  refine ⟨?_, ?_, ?_⟩
  · intro s' bufData' heq
    unfold afl_custom_fuzz_ FFIContext.fromPtr
    simp [hdata, hvalid, hbuf, hout, heq]
  · intro s' bufData' a d heq
    unfold afl_custom_fuzz_ FFIContext.fromPtr
    simp [hdata, hvalid, hbuf, hout, heq]
  · intro s' bufData' heq
    unfold afl_custom_fuzz_ FFIContext.fromPtr
    simp [hdata, hvalid, hbuf, hout, heq]

/-- Witness for C1 at the sample reversal plugin on a concrete heap and
concrete buffers: the plugin reports `InPlace`, so the output slot receives
the primary buffer's address 100 and the returned length is 2. -/
theorem claim_C1_fuzz_encoding_witness :
    (afl_custom_fuzz_ ExampleMutator ⟨2, fun q => if q = 1 then some () else none⟩
        1 100 [7, 9] 200 0 [] 8).1 =
      .ok ⟨Heap.update ⟨2, fun q => if q = 1 then some () else none⟩ 1 (),
        [9, 7], 100, 2, .InPlace⟩ :=
  (claim_C1_fuzz_encoding ExampleMutator
      ⟨2, fun q => if q = 1 then some () else none⟩ 1 100 200 0 [7, 9] [] 8 ()
      rfl (by decide) (by decide) (by decide)).1 () [9, 7] rfl

/-- On a successful fallible result the adapter forwards the value unchanged
and never invokes the error handler. -/
lemma handleResult_ok {E A : Type} (he : E → Outcome Unit) (r : Except E A)
    (v : A) (h : r = .ok v) : handleResult he r = (.ok v, []) := by
  subst h
  rfl

/-- On a failed fallible result the adapter invokes the error handler exactly
once with the error value, never returns a normal value, and escalates to
the `msgHandlerReturned` panic when the handler returns normally. -/
lemma handleResult_err {E A : Type} (he : E → Outcome Unit) (r : Except E A)
    (e : E) (h : r = .error e) :
    (handleResult he r).2 = [e] ∧ (∀ v, (handleResult he r).1 ≠ .ok v) ∧
      (he e = .ok () → (handleResult he r).1 = .panicked msgHandlerReturned) := by
  subst h
  unfold handleResult
  cases hh : he e <;> simp [hh]

/-- A concrete fallible plugin used to exercise the adapter: its `init`
always fails with error 7, its error handler panics, its `fuzz` reports
`Fail`, and every optional operation is the trait default. -/
def FailingInitMutator : FallibleCustomMutator Nat Nat :=
  FallibleCustomMutator.withDefaults
    (fun _ => .panicked "example error handler aborted")
    (fun _ _ => .error 7)
    (fun s buffer _ _ => .ok (s, buffer, .Fail))

/-- C2: for every fallible mutator and each of the seven adapted operations
(`init`, `fuzz_count`, `fuzz`, `queue_new_entry`, `queue_get`, `describe`,
`introspection`), an `Ok` result is forwarded unchanged with no handler
invocation, while an `Err e` invokes `handle_err` exactly once with `e`,
never returns a normal value, and escalates to the unconditional
"Error handler did not panic" abort when the handler returns normally. -/
theorem claim_C2_fallible_adapter {S E : Type} (F : FallibleCustomMutator S E) :
    (∀ afl seed v, F.init afl seed = .ok v →
      adaptInit F afl seed = (.ok v, [])) ∧
    (∀ afl seed e, F.init afl seed = .error e →
      (adaptInit F afl seed).2 = [e] ∧
        (∀ v, (adaptInit F afl seed).1 ≠ .ok v) ∧
        (F.handle_err e = .ok () →
          (adaptInit F afl seed).1 = .panicked msgHandlerReturned)) ∧
    (∀ s b v, F.fuzz_count s b = .ok v →
      adaptFuzzCount F s b = (.ok v, [])) ∧
    (∀ s b e, F.fuzz_count s b = .error e →
      (adaptFuzzCount F s b).2 = [e] ∧
        (∀ v, (adaptFuzzCount F s b).1 ≠ .ok v) ∧
        (F.handle_err e = .ok () →
          (adaptFuzzCount F s b).1 = .panicked msgHandlerReturned)) ∧
    (∀ s b ab ms v, F.fuzz s b ab ms = .ok v →
      adaptFuzz F s b ab ms = (.ok v, [])) ∧
    (∀ s b ab ms e, F.fuzz s b ab ms = .error e →
      (adaptFuzz F s b ab ms).2 = [e] ∧
        (∀ v, (adaptFuzz F s b ab ms).1 ≠ .ok v) ∧
        (F.handle_err e = .ok () →
          (adaptFuzz F s b ab ms).1 = .panicked msgHandlerReturned)) ∧
    (∀ s fn fo v, F.queue_new_entry s fn fo = .ok v →
      adaptQueueNewEntry F s fn fo = (.ok v, [])) ∧
    (∀ s fn fo e, F.queue_new_entry s fn fo = .error e →
      (adaptQueueNewEntry F s fn fo).2 = [e] ∧
        (∀ v, (adaptQueueNewEntry F s fn fo).1 ≠ .ok v) ∧
        (F.handle_err e = .ok () →
          (adaptQueueNewEntry F s fn fo).1 = .panicked msgHandlerReturned)) ∧
    (∀ s fn v, F.queue_get s fn = .ok v →
      adaptQueueGet F s fn = (.ok v, [])) ∧
    (∀ s fn e, F.queue_get s fn = .error e →
      (adaptQueueGet F s fn).2 = [e] ∧
        (∀ v, (adaptQueueGet F s fn).1 ≠ .ok v) ∧
        (F.handle_err e = .ok () →
          (adaptQueueGet F s fn).1 = .panicked msgHandlerReturned)) ∧
    (∀ s md v, F.describe s md = .ok v →
      adaptDescribe F s md = (.ok v, [])) ∧
    (∀ s md e, F.describe s md = .error e →
      (adaptDescribe F s md).2 = [e] ∧
        (∀ v, (adaptDescribe F s md).1 ≠ .ok v) ∧
        (F.handle_err e = .ok () →
          (adaptDescribe F s md).1 = .panicked msgHandlerReturned)) ∧
    (∀ s v, F.introspection s = .ok v →
      adaptIntrospection F s = (.ok v, [])) ∧
    (∀ s e, F.introspection s = .error e →
      (adaptIntrospection F s).2 = [e] ∧
        (∀ v, (adaptIntrospection F s).1 ≠ .ok v) ∧
        (F.handle_err e = .ok () →
          (adaptIntrospection F s).1 = .panicked msgHandlerReturned)) := by
  refine ⟨?_, ?_, ?_, ?_, ?_, ?_, ?_, ?_, ?_, ?_, ?_, ?_, ?_, ?_⟩
  · intro afl seed v h
    exact handleResult_ok F.handle_err _ v h
  · intro afl seed e h
    exact handleResult_err F.handle_err _ e h
  · intro s b v h
    exact handleResult_ok F.handle_err _ v h
  · intro s b e h
    exact handleResult_err F.handle_err _ e h
  · intro s b ab ms v h
    exact handleResult_ok F.handle_err _ v h
  · intro s b ab ms e h
    exact handleResult_err F.handle_err _ e h
  · intro s fn fo v h
    exact handleResult_ok F.handle_err _ v h
  · intro s fn fo e h
    exact handleResult_err F.handle_err _ e h
  · intro s fn v h
    exact handleResult_ok F.handle_err _ v h
  · intro s fn e h
    exact handleResult_err F.handle_err _ e h
  · intro s md v h
    exact handleResult_ok F.handle_err _ v h
  · intro s md e h
    exact handleResult_err F.handle_err _ e h
  · intro s v h
    exact handleResult_ok F.handle_err _ v h
  · intro s e h
    exact handleResult_err F.handle_err _ e h

/-- Witness for C2 at the concrete `FailingInitMutator`: its default
`fuzz_count` succeeds with value 1 and is forwarded unchanged with no
handler call, while its failing `init` invokes the handler exactly once
with error 7. -/
theorem claim_C2_fallible_adapter_witness :
    adaptFuzzCount FailingInitMutator 0 [1] = (.ok (0, 1), []) ∧
      (adaptInit FailingInitMutator ⟨()⟩ 5).2 = [7] :=
  ⟨(claim_C2_fallible_adapter FailingInitMutator).2.2.1 0 [1] (0, 1) rfl,
    ((claim_C2_fallible_adapter FailingInitMutator).2.1 ⟨()⟩ 5 7 rfl).1⟩

/-- A successful reconstitution means the handle is a live allocation holding
the returned state. -/
lemma fromPtr_ok {S : Type} {heap : Heap S} {h : Ptr} {s : S}
    (hf : FFIContext.fromPtr heap h = .ok s) : heap.ctxs h = some s := by
  unfold FFIContext.fromPtr at hf
  split at hf
  · simp at hf
  · cases hc : heap.ctxs h with
    | some s1 =>
      rw [hc] at hf
      cases hf
      rfl
    | none =>
      rw [hc] at hf
      simp at hf

/-- Writing back into a live allocation changes which state is stored but
not which addresses are allocated. -/
lemma update_isSome {S : Type} (heap : Heap S) (h p : Ptr) (s s' : S)
    (hh : heap.ctxs h = some s) :
    ((heap.update h s').ctxs p).isSome = (heap.ctxs p).isSome := by
  unfold Heap.update
  by_cases hp : p = h <;> simp [hp, hh]

/-- Every intermediate entry point (everything but init and deinit) leaves
the set of live allocations unchanged: a successful call neither frees nor
allocates a context box. -/
lemma runEntry_allocated {S : Type} (M : CustomMutator S) (heap : Heap S)
    (h : Ptr) (c : EntryCall) (heap' : Heap S)
    (hok : runEntry M heap h c = .ok heap') :
    ∀ p, (heap'.ctxs p).isSome = (heap.ctxs p).isSome := by
  intro p
  cases c with
  | fuzz buf bufData out_buf add_buf addData max_size =>
    simp only [runEntry] at hok
    unfold afl_custom_fuzz_ at hok
    cases hf : FFIContext.fromPtr heap h with
    | panicked m => rw [hf] at hok; simp [Outcome.map] at hok
    | ub => rw [hf] at hok; simp [Outcome.map] at hok
    | ok s =>
      rw [hf] at hok
      by_cases hb : buf = 0
      · simp [hb, Outcome.map] at hok
      · by_cases ho : out_buf = 0
        · simp [hb, ho, Outcome.map] at hok
        · simp only [hb, ho, if_neg, ite_false] at hok
          cases hres : (M.fuzz s bufData
              (if add_buf = 0 then none else some addData) max_size).2.2 with
          | InPlace =>
            simp [hres, Outcome.map] at hok
            rw [← hok]
            exact update_isSome heap h p s _ (fromPtr_ok hf)
          | NewBuffer a d =>
            simp [hres, Outcome.map] at hok
            rw [← hok]
            exact update_isSome heap h p s _ (fromPtr_ok hf)
          | Fail =>
            simp [hres, Outcome.map] at hok
            rw [← hok]
            exact update_isSome heap h p s _ (fromPtr_ok hf)
  | fuzz_count buf bufData =>
    simp only [runEntry] at hok
    unfold afl_custom_fuzz_count_ at hok
    cases hf : FFIContext.fromPtr heap h with
    | panicked m => rw [hf] at hok; simp [Outcome.map] at hok
    | ub => rw [hf] at hok; simp [Outcome.map] at hok
    | ok s =>
      rw [hf] at hok
      by_cases hb : buf = 0
      · simp [hb, Outcome.map] at hok
      · simp [hb, Outcome.map] at hok
        rw [← hok]
        exact update_isSome heap h p s _ (fromPtr_ok hf)
  | queue_new_entry pnew fnew porig forig =>
    simp only [runEntry] at hok
    unfold afl_custom_queue_new_entry_ at hok
    cases hf : FFIContext.fromPtr heap h with
    | panicked m => rw [hf] at hok; simp at hok
    | ub => rw [hf] at hok; simp at hok
    | ok s =>
      rw [hf] at hok
      by_cases hn : pnew = 0
      · simp [hn] at hok
      · simp [hn] at hok
        rw [← hok]
        exact update_isSome heap h p s _ (fromPtr_ok hf)
  | queue_get pfn fname =>
    simp only [runEntry] at hok
    unfold afl_custom_queue_get_ at hok
    cases hf : FFIContext.fromPtr heap h with
    | panicked m => rw [hf] at hok; simp [Outcome.map] at hok
    | ub => rw [hf] at hok; simp [Outcome.map] at hok
    | ok s =>
      rw [hf] at hok
      by_cases hn : pfn = 0
      · simp [hn, Outcome.map] at hok
      · simp [hn, Outcome.map] at hok
        rw [← hok]
        exact update_isSome heap h p s _ (fromPtr_ok hf)
  | describe maxLen =>
    simp only [runEntry] at hok
    unfold afl_custom_describe_ at hok
    cases hf : FFIContext.fromPtr heap h with
    | panicked m => rw [hf] at hok; simp [Outcome.map] at hok
    | ub => rw [hf] at hok; simp [Outcome.map] at hok
    | ok s =>
      rw [hf] at hok
      simp [Outcome.map] at hok
      rw [← hok]
      exact update_isSome heap h p s _ (fromPtr_ok hf)
  | introspection =>
    simp only [runEntry] at hok
    unfold afl_custom_introspection_ at hok
    cases hf : FFIContext.fromPtr heap h with
    | panicked m => rw [hf] at hok; simp [Outcome.map] at hok
    | ub => rw [hf] at hok; simp [Outcome.map] at hok
    | ok s =>
      rw [hf] at hok
      simp [Outcome.map] at hok
      rw [← hok]
      exact update_isSome heap h p s _ (fromPtr_ok hf)

/-- A successful sequence of intermediate entry points leaves the set of
live allocations unchanged. -/
lemma runSeq_allocated {S : Type} (M : CustomMutator S) (h : Ptr)
    (ops : List EntryCall) :
    ∀ heap heap', runSeq M h ops heap = .ok heap' →
      ∀ p, (heap'.ctxs p).isSome = (heap.ctxs p).isSome := by
  induction ops with
  | nil =>
    intro heap heap' hr p
    unfold runSeq at hr
    cases hr
    rfl
  | cons c cs ih =>
    intro heap heap' hr p
    unfold runSeq at hr
    cases he : runEntry M heap h c with
    | panicked m => rw [he] at hr; simp at hr
    | ub => rw [he] at hr; simp at hr
    | ok hmid =>
      rw [he] at hr
      exact (ih hmid heap' hr p).trans (runEntry_allocated M heap h c hmid he p)

/-- C3: reconstitution is a temporary view — across a compliant session
`init, op1, ..., opn, deinit` the plugin instance is created exactly once
(init allocates a previously-unallocated handle and changes nothing else),
every intermediate entry point leaves the set of live allocations unchanged
(the instance survives each call), and only `afl_custom_deinit_` destroys
it: deinit succeeds, frees exactly the session's handle, and leaves every
other allocation untouched. -/
theorem claim_C3_lifecycle {S : Type} (M : CustomMutator S) (heap0 : Heap S)
    (afl : afl_state) (seed : Nat) (ops : List EntryCall)
    (heap1 heap2 : Heap S) (h : Ptr) (tr : List PluginCall)
    (hwf : heap0.WF)
    (hinit : afl_custom_init_ M heap0 (some afl) seed = (.ok (heap1, h), tr))
    (hops : runSeq M h ops heap1 = .ok heap2) :
    heap0.ctxs h = none ∧
    heap1.ctxs h = some (M.init afl seed) ∧
    (∀ p, p ≠ h → heap1.ctxs p = heap0.ctxs p) ∧
    (∀ p, (heap2.ctxs p).isSome = (heap1.ctxs p).isSome) ∧
    ∃ heap3, afl_custom_deinit_ heap2 h = (.ok heap3, []) ∧
      heap3.ctxs h = none ∧
      (∀ p, p ≠ h → heap3.ctxs p = heap2.ctxs p) := by
  unfold afl_custom_init_ Heap.alloc at hinit
  simp only [Prod.mk.injEq, Outcome.ok.injEq] at hinit
  obtain ⟨⟨hheap1, hh⟩, htr⟩ := hinit
  subst hh
  have h0 : heap0.ctxs heap0.next = none := hwf.2 heap0.next (Nat.le_refl _)
  have hne : heap0.next ≠ 0 := Nat.pos_iff_ne_zero.mp hwf.1
  have h1 : heap1.ctxs heap0.next = some (M.init afl seed) := by
    rw [← hheap1]
    simp
  refine ⟨h0, h1, ?_, runSeq_allocated M heap0.next ops heap1 heap2 hops, ?_⟩
  · intro p hp
    rw [← hheap1]
    simp [hp]
  · have h2 : (heap2.ctxs heap0.next).isSome = true := by
      rw [runSeq_allocated M heap0.next ops heap1 heap2 hops heap0.next, h1]
      rfl
    obtain ⟨s2, hs2⟩ := Option.isSome_iff_exists.mp h2
    refine ⟨heap2.free heap0.next, ?_, ?_, ?_⟩
    · unfold afl_custom_deinit_ FFIContext.fromPtr
      simp [hne, hs2]
    · unfold Heap.free
      simp
    · intro p hp
      unfold Heap.free
      simp [hp]

/-- Witness for C3 at the sample reversal plugin: a compliant session on the
empty heap with seed 42 and one intermediate `introspection` call; the
handle 1 is unallocated before init and holds the instance afterwards. -/
theorem claim_C3_lifecycle_witness :
    Heap.ctxs (⟨2, fun q => if q = 1 then some () else none⟩ : Heap Unit) 1 =
      some () ∧
    Heap.ctxs (⟨1, fun _ => none⟩ : Heap Unit) 1 = none := by
  have H := claim_C3_lifecycle ExampleMutator ⟨1, fun _ => none⟩ ⟨()⟩ 42
    [.introspection] ⟨2, fun q => if q = 1 then some () else none⟩
    (Heap.update ⟨2, fun q => if q = 1 then some () else none⟩ 1 ()) 1
    [.init 42] ⟨Nat.one_pos, fun _ _ => rfl⟩ rfl rfl
  exact ⟨H.2.1, H.1⟩

/-- C4: passing NULL for a pointer parameter the ABI contract requires to be
non-null is a fatal panic, not a recoverable error or a normal return:
init's host-state reference, fuzz's input buffer and output-pointer slot,
fuzz_count's buffer, queue_new_entry's new-entry path, and queue_get's
filename. -/
theorem claim_C4_null_required_pointer_panics {S : Type} (M : CustomMutator S)
    (heap : Heap S) (data : Ptr) (s : S)
    (hvalid : heap.ctxs data = some s) (hdata : data ≠ 0) :
    (∀ seed, (afl_custom_init_ M heap none seed).1 = .panicked msgNullAfl) ∧
    (∀ bufData out_buf add_buf addData max_size,
      (afl_custom_fuzz_ M heap data 0 bufData out_buf add_buf addData
          max_size).1 = .panicked msgNullBuf) ∧
    (∀ buf bufData add_buf addData max_size, buf ≠ 0 →
      (afl_custom_fuzz_ M heap data buf bufData 0 add_buf addData
          max_size).1 = .panicked msgNullOutBuf) ∧
    (∀ bufData,
      (afl_custom_fuzz_count_ M heap data 0 bufData).1 = .panicked msgNullBuf) ∧
    (∀ fnew porig forig,
      (afl_custom_queue_new_entry_ M heap data 0 fnew porig forig).1 =
        .panicked msgNullFilenameNewQueue) ∧
    (∀ fname,
      (afl_custom_queue_get_ M heap data 0 fname).1 = .panicked msgNullFilename) := by
  refine ⟨fun seed => rfl, ?_, ?_, ?_, ?_, ?_⟩
  · intro bufData out_buf add_buf addData max_size
    unfold afl_custom_fuzz_ FFIContext.fromPtr
    simp [hdata, hvalid]
  · intro buf bufData add_buf addData max_size hbuf
    unfold afl_custom_fuzz_ FFIContext.fromPtr
    simp [hdata, hvalid, hbuf]
  · intro bufData
    unfold afl_custom_fuzz_count_ FFIContext.fromPtr
    simp [hdata, hvalid]
  · intro fnew porig forig
    unfold afl_custom_queue_new_entry_ FFIContext.fromPtr
    simp [hdata, hvalid]
  · intro fname
    unfold afl_custom_queue_get_ FFIContext.fromPtr
    simp [hdata, hvalid]

/-- Witness for C4 on a concrete live handle: a null primary buffer makes
`afl_custom_fuzz_` panic and a null filename makes `afl_custom_queue_get_`
panic. -/
theorem claim_C4_null_required_pointer_panics_witness :
    (afl_custom_fuzz_ ExampleMutator
        ⟨2, fun q => if q = 1 then some () else none⟩ 1 0 [5] 200 0 [] 4).1 =
      .panicked msgNullBuf ∧
    (afl_custom_queue_get_ ExampleMutator
        ⟨2, fun q => if q = 1 then some () else none⟩ 1 0 [65]).1 =
      .panicked msgNullFilename := by
  have H := claim_C4_null_required_pointer_panics ExampleMutator
    ⟨2, fun q => if q = 1 then some () else none⟩ 1 () rfl (by decide)
  exact ⟨H.2.1 [5] 200 0 [] 4, H.2.2.2.2.2 [65]⟩

/-- C5: every handle-taking entry point called with a NULL handle fails the
`assert!(!ptr.is_null())` of `FFIContext::from` and panics before any
plugin operation is invoked (the plugin-call trace is empty). -/
theorem claim_C5_null_handle_aborts {S : Type} (M : CustomMutator S)
    (heap : Heap S) :
    (∀ buf bufData out_buf add_buf addData max_size,
      afl_custom_fuzz_ M heap 0 buf bufData out_buf add_buf addData max_size =
        (.panicked msgNullHandle, [])) ∧
    (∀ buf bufData,
      afl_custom_fuzz_count_ M heap 0 buf bufData = (.panicked msgNullHandle, [])) ∧
    (∀ pnew fnew porig forig,
      afl_custom_queue_new_entry_ M heap 0 pnew fnew porig forig =
        (.panicked msgNullHandle, [])) ∧
    (∀ pfn fname,
      afl_custom_queue_get_ M heap 0 pfn fname = (.panicked msgNullHandle, [])) ∧
    afl_custom_introspection_ M heap 0 = (.panicked msgNullHandle, []) ∧
    (∀ maxLen,
      afl_custom_describe_ M heap 0 maxLen = (.panicked msgNullHandle, [])) ∧
    afl_custom_deinit_ heap 0 = ((.panicked msgNullHandle : Outcome (Heap S)), []) :=
  ⟨fun _ _ _ _ _ _ => rfl, fun _ _ => rfl, fun _ _ _ _ => rfl, fun _ _ => rfl,
    rfl, fun _ => rfl, rfl⟩

/-- C6: a null pointer for an optional parameter is not an error: with a
null secondary-buffer pointer the plugin's `fuzz` is invoked with `none`,
and with a null original-entry path the plugin's `queue_new_entry` is
invoked with `none` and the call completes normally with no return value
beyond the state write-back. -/
theorem claim_C6_optional_null_pointers {S : Type} (M : CustomMutator S)
    (heap : Heap S) (data : Ptr) (s : S)
    (hvalid : heap.ctxs data = some s) (hdata : data ≠ 0) :
    (∀ buf bufData out_buf addData max_size, buf ≠ 0 → out_buf ≠ 0 →
      (afl_custom_fuzz_ M heap data buf bufData out_buf 0 addData max_size).2 =
        [.fuzz bufData none max_size]) ∧
    (∀ pnew fnew forig, pnew ≠ 0 →
      afl_custom_queue_new_entry_ M heap data pnew fnew 0 forig =
        (.ok (heap.update data (M.queue_new_entry s fnew none)),
          [.queue_new_entry fnew none])) := by
  constructor
  · intro buf bufData out_buf addData max_size hbuf hout
    unfold afl_custom_fuzz_ FFIContext.fromPtr
    simp only [hdata, hvalid, if_neg, ite_false]
    cases hres : (M.fuzz s bufData none max_size).2.2 <;>
      simp [hbuf, hout, hres]
  · intro pnew fnew forig hnew
    unfold afl_custom_queue_new_entry_ FFIContext.fromPtr
    simp [hdata, hvalid, hnew]

/-- Witness for C6 on a concrete live handle: a fuzz call with a null
secondary-buffer pointer reaches the plugin with `none`, and a
queue_new_entry call with a null original path completes normally with the
plugin seeing `none`. -/
theorem claim_C6_optional_null_pointers_witness :
    (afl_custom_fuzz_ ExampleMutator
        ⟨2, fun q => if q = 1 then some () else none⟩ 1 100 [1, 2] 200 0 [9]
        8).2 = [.fuzz [1, 2] none 8] ∧
    afl_custom_queue_new_entry_ ExampleMutator
        ⟨2, fun q => if q = 1 then some () else none⟩ 1 300 [97] 0 [98] =
      (.ok (Heap.update ⟨2, fun q => if q = 1 then some () else none⟩ 1
        (ExampleMutator.queue_new_entry () [97] none)),
        [.queue_new_entry [97] none]) := by
  have H := claim_C6_optional_null_pointers ExampleMutator
    ⟨2, fun q => if q = 1 then some () else none⟩ 1 () rfl (by decide)
  exact ⟨H.1 100 [1, 2] 200 [9] 8 (by decide) (by decide),
    H.2 300 [97] [98] (by decide)⟩

/-- C7: a mutator built without overriding `fuzz_count` reports 1 for every
buffer: the `afl_custom_fuzz_count_` bridge returns 1 and stores the plugin
state back unchanged on every call, regardless of the buffer contents, and
the fallible default likewise returns `Ok(1)` with no handler invocation. -/
theorem claim_C7_fuzz_count_default_one {S E : Type} :
    (∀ (initFn : afl_state → Nat → S)
      (fuzzFn : S → List Byte → Option (List Byte) → Nat →
        S × List Byte × FuzzResult)
      (heap : Heap S) (data buf : Ptr) (s : S) (bufData : List Byte),
      heap.ctxs data = some s → data ≠ 0 → buf ≠ 0 →
      (afl_custom_fuzz_count_ (CustomMutator.withDefaults initFn fuzzFn) heap
          data buf bufData).1 = .ok (heap.update data s, 1)) ∧
    (∀ (he : E → Outcome Unit) (initFn : afl_state → Nat → Except E S)
      (fuzzFn : S → List Byte → Option (List Byte) → Nat →
        Except E (S × List Byte × FuzzResult)) (s : S) (bufData : List Byte),
      adaptFuzzCount (FallibleCustomMutator.withDefaults he initFn fuzzFn) s
        bufData = (.ok (s, 1), [])) := by
  constructor
  · intro initFn fuzzFn heap data buf s bufData hvalid hdata hbuf
    unfold afl_custom_fuzz_count_ FFIContext.fromPtr
    simp [hdata, hvalid, hbuf, CustomMutator.withDefaults]
  · intro he initFn fuzzFn s bufData
    rfl

/-- Witness for C7: the sample reversal plugin (which does not override
`fuzz_count`) reports count 1 on a concrete buffer, and the concrete
fallible plugin's default `fuzz_count` yields `Ok(1)`. -/
theorem claim_C7_fuzz_count_default_one_witness :
    (afl_custom_fuzz_count_ ExampleMutator
        ⟨2, fun q => if q = 1 then some () else none⟩ 1 100 [4, 5, 6]).1 =
      .ok (Heap.update ⟨2, fun q => if q = 1 then some () else none⟩ 1 (), 1) ∧
    adaptFuzzCount FailingInitMutator 3 [8] = (.ok (3, 1), []) :=
  ⟨(claim_C7_fuzz_count_default_one (E := Nat)).1 (fun _ _ => ())
      (fun s buffer _ _ => (s, buffer.reverse, .InPlace))
      ⟨2, fun q => if q = 1 then some () else none⟩ 1 100 () [4, 5, 6] rfl
      (by decide) (by decide),
    (claim_C7_fuzz_count_default_one (S := Nat)).2
      (fun _ => .panicked "example error handler aborted") (fun _ _ => .error 7)
      (fun s buffer _ _ => .ok (s, buffer, .Fail)) 3 [8]⟩

/-- C8: a mutator built without overriding `queue_get` accepts every queue
entry: the trait default returns `true` for every path and state, the
`afl_custom_queue_get_` bridge consequently returns the byte 1 for every
non-null filename, and the fallible default likewise returns `Ok(true)`. -/
theorem claim_C8_queue_get_default_true {S E : Type} :
    (∀ (initFn : afl_state → Nat → S)
      (fuzzFn : S → List Byte → Option (List Byte) → Nat →
        S × List Byte × FuzzResult) (s : S) (fname : CString),
      (CustomMutator.withDefaults initFn fuzzFn).queue_get s fname = (s, true)) ∧
    (∀ (initFn : afl_state → Nat → S)
      (fuzzFn : S → List Byte → Option (List Byte) → Nat →
        S × List Byte × FuzzResult)
      (heap : Heap S) (data pfn : Ptr) (s : S) (fname : CString),
      heap.ctxs data = some s → data ≠ 0 → pfn ≠ 0 →
      (afl_custom_queue_get_ (CustomMutator.withDefaults initFn fuzzFn) heap
          data pfn fname).1 = .ok (heap.update data s, 1)) ∧
    (∀ (he : E → Outcome Unit) (initFn : afl_state → Nat → Except E S)
      (fuzzFn : S → List Byte → Option (List Byte) → Nat →
        Except E (S × List Byte × FuzzResult)) (s : S) (fname : CString),
      adaptQueueGet (FallibleCustomMutator.withDefaults he initFn fuzzFn) s
        fname = (.ok (s, true), [])) := by
  refine ⟨fun initFn fuzzFn s fname => rfl, ?_, fun he initFn fuzzFn s fname => rfl⟩
  intro initFn fuzzFn heap data pfn s fname hvalid hdata hpfn
  unfold afl_custom_queue_get_ FFIContext.fromPtr
  simp [hdata, hvalid, hpfn, CustomMutator.withDefaults]

/-- Witness for C8: the sample reversal plugin (which does not override
`queue_get`) accepts a concrete filename through the bridge with byte 1,
and the concrete fallible plugin's default `queue_get` yields `Ok(true)`. -/
theorem claim_C8_queue_get_default_true_witness :
    (afl_custom_queue_get_ ExampleMutator
        ⟨2, fun q => if q = 1 then some () else none⟩ 1 300 [113]).1 =
      .ok (Heap.update ⟨2, fun q => if q = 1 then some () else none⟩ 1 (), 1) ∧
    adaptQueueGet FailingInitMutator 4 [113] = (.ok (4, true), []) :=
  ⟨(claim_C8_queue_get_default_true (E := Nat)).2.1 (fun _ _ => ())
      (fun s buffer _ _ => (s, buffer.reverse, .InPlace))
      ⟨2, fun q => if q = 1 then some () else none⟩ 1 300 () [113] rfl
      (by decide) (by decide),
    (claim_C8_queue_get_default_true (S := Nat)).2.2
      (fun _ => .panicked "example error handler aborted") (fun _ _ => .error 7)
      (fun s buffer _ _ => .ok (s, buffer, .Fail)) 4 [113]⟩

/-- C9: the scenario of the sample reversal plugin: initialising on the empty
heap with seed 42 allocates handle 1; calling fuzz on the buffer
`[0x01, 0x02, 0x03]` at address 100 with a null secondary buffer and max
size 16 yields the in-place outcome, writes the input buffer's address 100
to the output slot, returns length 3, and leaves the buffer's contents
reversed to `[0x03, 0x02, 0x01]`. -/
theorem claim_C9_example_scenario :
    afl_custom_init_ ExampleMutator ⟨1, fun _ => none⟩ (some ⟨()⟩) 42 =
      (.ok (⟨2, fun q => if q = 1 then some () else none⟩, 1), [.init 42]) ∧
    (afl_custom_fuzz_ ExampleMutator
        ⟨2, fun q => if q = 1 then some () else none⟩ 1 100 [1, 2, 3] 200 0 []
        16).1 =
      .ok ⟨Heap.update ⟨2, fun q => if q = 1 then some () else none⟩ 1 (),
        [3, 2, 1], 100, 3, .InPlace⟩ :=
  ⟨rfl, rfl⟩

/-- C10: with a non-null host-state reference, `afl_custom_init_` on a
well-formed heap always succeeds and returns the address of the freshly
allocated context box — a non-null handle that was unallocated before the
call, holds the new plugin instance afterwards, is accepted (not rejected)
by the `FFIContext::from` null-handle check of every later entry point, and
leaves the heap well-formed. -/
theorem claim_C10_init_handle_nonnull {S : Type} (M : CustomMutator S)
    (heap : Heap S) (afl : afl_state) (seed : Nat) (hwf : heap.WF) :
    ∃ heap', afl_custom_init_ M heap (some afl) seed =
        (.ok (heap', heap.next), [.init seed]) ∧
      heap.next ≠ 0 ∧
      heap.ctxs heap.next = none ∧
      heap'.ctxs heap.next = some (M.init afl seed) ∧
      FFIContext.fromPtr heap' heap.next = .ok (M.init afl seed) ∧
      heap'.WF := by
  have hne : heap.next ≠ 0 := Nat.pos_iff_ne_zero.mp hwf.1
  refine ⟨(heap.alloc (M.init afl seed)).1, rfl, hne,
    hwf.2 heap.next (Nat.le_refl _), ?_, ?_, ?_, ?_⟩
  · unfold Heap.alloc
    simp
  · unfold FFIContext.fromPtr Heap.alloc
    simp [hne]
  · unfold Heap.alloc
    exact Nat.succ_pos _
  · intro p hp
    unfold Heap.alloc at hp ⊢
    simp only at hp ⊢
    have hpn : p ≠ heap.next := by
      intro he
      rw [he] at hp
      exact Nat.not_succ_le_self _ hp
    simp [hpn]
    exact hwf.2 p (Nat.le_of_succ_le hp)

/-- Witness for C10: init with seed 7 on the concrete empty heap yields the
non-null handle 1, which was unallocated beforehand. -/
theorem claim_C10_init_handle_nonnull_witness :
    Heap.next (⟨1, fun _ => none⟩ : Heap Unit) ≠ 0 ∧
    Heap.ctxs (⟨1, fun _ => none⟩ : Heap Unit)
      (Heap.next (⟨1, fun _ => none⟩ : Heap Unit)) = none := by
  have H := claim_C10_init_handle_nonnull ExampleMutator ⟨1, fun _ => none⟩
    ⟨()⟩ 7 ⟨Nat.one_pos, fun _ _ => rfl⟩
  obtain ⟨heap', _, h2, h3, _⟩ := H
  exact ⟨h2, h3⟩

end AflppCustomMutator
